import Mathlib

/-!
# Verification of the passage-of-time core (Go repository)

Shallow embedding of the core time/date operations of the repository:
the fuzzy timestamp dispatcher (`passageoftime/parser.go`), the strict
timestamp parser, duration formatter, context classifier and description
generator (`passageoftime/compat.go` and the server-side copies), together
with models of the external collaborator libraries (Go standard `time`
package behaviour, the `dateparse` standard-format library, the `when`
natural-language library, `humanize`).

Modelling conventions:
* Go `time.Time` is an absolute instant (seconds + nanoseconds since the
  Unix epoch) decorated with a display `Location`.  Locations are modelled
  with fixed UTC offsets (no DST transitions); the timezone database is a
  small finite table standing in for the IANA database lookup.
* Go `float64` second quantities are modelled exactly as fractions
  (integer numerator over positive natural denominator); Go's
  float→int conversion is truncation toward zero.
* All string manipulation is re-implemented structurally over `List Char`
  so that every definition evaluates by kernel reduction.
-/

set_option maxRecDepth 16384

deriving instance DecidableEq for Except

namespace PTime

/-! ## Character/string utilities (structural re-implementations) -/

/-- Drop leading and trailing whitespace, as Go `strings.TrimSpace`. -/
def charsTrim (cs : List Char) : List Char :=
  (((cs.dropWhile Char.isWhitespace).reverse.dropWhile Char.isWhitespace)).reverse

/-- Go `strings.TrimSpace` on `String`. -/
def strTrim (s : String) : String := ⟨charsTrim s.data⟩

/-- Worker for `fieldsOf`: split a char list on whitespace runs. -/
def splitWsAux : List Char → List Char → List (List Char)
  | [], acc => if acc.isEmpty then [] else [acc.reverse]
  | c :: cs, acc =>
    if c.isWhitespace then
      (if acc.isEmpty then splitWsAux cs [] else acc.reverse :: splitWsAux cs [])
    else splitWsAux cs (c :: acc)

/-- Go `strings.Fields`: whitespace-separated fields. -/
def fieldsOf (s : String) : List String := (splitWsAux s.data []).map String.mk

/-- Numeric value of a decimal digit character. -/
def digitVal (c : Char) : Nat := c.toNat - 48

/-- Value of a list of decimal digit characters (most significant first). -/
def digitsToNat : List Char → Nat
  | [] => 0
  | c :: cs => digitVal c * 10 ^ cs.length + digitsToNat cs

/-- Two-digit zero padding, as Go `%02d` for values in `[0, 99]`. -/
def pad2 (n : Int) : String := if n < 10 then "0" ++ toString n else toString n

/-- Four-digit zero padding, as the Go year field `2006`. -/
def pad4 (n : Int) : String :=
  if n < 10 then "000" ++ toString n
  else if n < 100 then "00" ++ toString n
  else if n < 1000 then "0" ++ toString n
  else toString n

/-- Go `strings.Join`. -/
def joinSep (sep : String) : List String → String
  | [] => ""
  | [x] => x
  | x :: xs => x ++ sep ++ joinSep sep xs

/-! ## Exact model of Go `float64` second quantities -/

/-- An exact fraction: stands in for the Go `float64` values that the
duration formatter and classifiers receive (all source computations on them
are comparisons, negation, division by a constant and truncation). -/
structure Frac where
  num : Int
  den : Nat
  den_pos : 0 < den

/-- Embed an integer quantity of seconds. -/
def Frac.ofInt (n : Int) : Frac := ⟨n, 1, Nat.one_pos⟩

/-- Go `q < k` for an integer bound `k`. -/
def Frac.ltInt (q : Frac) (k : Int) : Bool := q.num < k * (q.den : Int)

/-- Go unary negation. -/
def Frac.neg (q : Frac) : Frac := ⟨-q.num, q.den, q.den_pos⟩

/-- Go `int(x)` / `int64(x)`: conversion truncates toward zero. -/
def Frac.trunc (q : Frac) : Int := Int.tdiv q.num (q.den : Int)

/-- Mathematical floor of the represented rational. -/
def Frac.floor (q : Frac) : Int := Int.fdiv q.num (q.den : Int)

/-- Exact division by a positive integer constant. -/
def Frac.divNat (q : Frac) (k : Nat) (hk : 0 < k) : Frac :=
  ⟨q.num, q.den * k, Nat.mul_pos q.den_pos hk⟩

/-- Exact subtraction of an integer. -/
def Frac.subInt (q : Frac) (k : Int) : Frac := ⟨q.num - k * (q.den : Int), q.den, q.den_pos⟩

/-- The represented rational is `≥ 0`. -/
def Frac.Nonneg (q : Frac) : Prop := 0 ≤ q.num

instance (q : Frac) : Decidable q.Nonneg := by
  unfold Frac.Nonneg
  infer_instance

/-! ## Proleptic Gregorian calendar (as Go's `time` package computes it) -/

/-- Leap year test of the Gregorian calendar. -/
def isLeapYear (y : Int) : Bool :=
  (y.emod 4 == 0 && !(y.emod 100 == 0)) || y.emod 400 == 0

/-- Length of a month. -/
def daysInMonth (y m : Int) : Int :=
  if m == 2 then (if isLeapYear y then 29 else 28)
  else if m == 4 || m == 6 || m == 9 || m == 11 then 30
  else 31

/-- Days since the Unix epoch of a civil date (standard civil-calendar
conversion, equivalent to Go's internal `time` package computation). -/
def daysFromCivil (y m d : Int) : Int :=
  let y' := y - (if m ≤ 2 then 1 else 0)
  let era := Int.fdiv y' 400
  let yoe := y' - era * 400
  let mp := Int.emod (m + 9) 12
  let doy := Int.fdiv (153 * mp + 2) 5 + d - 1
  let doe := yoe * 365 + Int.fdiv yoe 4 - Int.fdiv yoe 100 + doy
  era * 146097 + doe - 719468

/-- Civil date (year, month, day) of a count of days since the Unix epoch
(inverse of `daysFromCivil`). -/
def civilFromDays (z : Int) : Int × Int × Int :=
  let z' := z + 719468
  let era := Int.fdiv z' 146097
  let doe := z' - era * 146097
  let yoe := Int.fdiv (doe - Int.fdiv doe 1460 + Int.fdiv doe 36524 - Int.fdiv doe 146096) 365
  let y := yoe + era * 400
  let doy := doe - (365 * yoe + Int.fdiv yoe 4 - Int.fdiv yoe 100)
  let mp := Int.fdiv (5 * doy + 2) 153
  let d := doy - Int.fdiv (153 * mp + 2) 5 + 1
  let m := mp + (if mp < 10 then 3 else -9)
  (y + (if m ≤ 2 then 1 else 0), m, d)

/-! ## Locations and the timezone database lookup -/

/-- A display timezone: IANA name, rendered abbreviation, fixed UTC offset
in seconds (DST transitions are not modelled; the table below only contains
fixed-offset zones). -/
structure Location where
  name : String
  abbr : String
  offset : Int
deriving DecidableEq

/-- `time.UTC`. -/
def utcLoc : Location := ⟨"UTC", "UTC", 0⟩

/-- A zone created from an offset during timestamp parsing
(Go `time.FixedZone` with empty name, as `time.Parse` produces). -/
def fixedZone (offset : Int) : Location := ⟨"", "", offset⟩

/-- Model of Go `time.LoadLocation`: a finite table standing in for the
IANA timezone database.  `""` resolves to UTC exactly as in Go; any
identifier outside the table fails, like an unknown identifier does
against the real database. -/
def loadLocation (tz : String) : Option Location :=
  if tz = "" then some utcLoc
  else if tz = "UTC" then some utcLoc
  else if tz = "Etc/GMT+5" then some ⟨"Etc/GMT+5", "-05", -18000⟩
  else if tz = "Etc/GMT-1" then some ⟨"Etc/GMT-1", "+01", 3600⟩
  else none

/-- The message of the Go `time.LoadLocation` lookup error. -/
def unknownTZMsg (tz : String) : String := "unknown time zone " ++ tz

/-! ## Instants (Go `time.Time`) -/

/-- Go `time.Time`: absolute seconds + nanoseconds since the Unix epoch,
with a display location.  `nsec` is kept in `[0, 10^9)` by construction. -/
structure GoTime where
  sec : Int
  nsec : Int
  loc : Location
deriving DecidableEq

/-- Go `t.In(loc)`: same instant, different display location. -/
def timeIn (t : GoTime) (loc : Location) : GoTime := ⟨t.sec, t.nsec, loc⟩

/-- Seconds since epoch of the local wall clock. -/
def localSec (t : GoTime) : Int := t.sec + t.loc.offset

/-- Whole local days since the Unix epoch. -/
def epochDays (t : GoTime) : Int := Int.fdiv (localSec t) 86400

/-- Seconds into the local day. -/
def secondsOfDay (t : GoTime) : Int := Int.emod (localSec t) 86400

/-- Go `t.Hour()`. -/
def hourOf (t : GoTime) : Int := Int.fdiv (secondsOfDay t) 3600

/-- Go `t.Minute()`. -/
def minuteOf (t : GoTime) : Int := Int.fdiv (Int.emod (secondsOfDay t) 3600) 60

/-- Go `t.Second()`. -/
def secondOf (t : GoTime) : Int := Int.emod (secondsOfDay t) 60

/-- Go `t.Date()`: the civil date in the display location. -/
def dateOf (t : GoTime) : Int × Int × Int := civilFromDays (epochDays t)

/-- Go `t.Day()`: the numeric day of month. -/
def dayOf (t : GoTime) : Int := (dateOf t).2.2

/-- Go `t.Weekday()` (`0` = Sunday): the Unix epoch fell on a Thursday. -/
def weekdayOf (t : GoTime) : Int := Int.emod (epochDays t + 4) 7

/-- Add a whole number of seconds (Go `t.Add` of a seconds duration). -/
def addSeconds (t : GoTime) (n : Int) : GoTime := ⟨t.sec + n, t.nsec, t.loc⟩

/-- Go `t.Add` of a nanosecond duration, carrying into the seconds field. -/
def addNs (t : GoTime) (ns : Int) : GoTime :=
  let total := t.sec * 1000000000 + t.nsec + ns
  ⟨Int.fdiv total 1000000000, Int.emod total 1000000000, t.loc⟩

/-- Go `a.Sub(b)` in nanoseconds. -/
def subNs (a b : GoTime) : Int :=
  (a.sec - b.sec) * 1000000000 + (a.nsec - b.nsec)

/-- Go `time.Date(y, m, d, hh, mi, ss, nsec, loc)` including its
normalization of out-of-range fields: the month is normalized into
`[1, 12]` carrying into the year, and an out-of-range day simply offsets
from the first of the month (so Jan 31 plus one month normalizes to
Mar 2/3, exactly as in Go). -/
def goDate (y m d hh mi ss ns : Int) (loc : Location) : GoTime :=
  let yn := y + Int.fdiv (m - 1) 12
  let mn := Int.emod (m - 1) 12 + 1
  let days := daysFromCivil yn mn 1 + (d - 1)
  let utcSec := days * 86400 + hh * 3600 + mi * 60 + ss - loc.offset
  let total := utcSec * 1000000000 + ns
  ⟨Int.fdiv total 1000000000, Int.emod total 1000000000, loc⟩

/-- Go `t.AddDate(years, months, days)`: calendar-aware addition via the
civil date, with `time.Date` normalization. -/
def addDate (t : GoTime) (years months days : Int) : GoTime :=
  let ymd := dateOf t
  goDate (ymd.1 + years) (ymd.2.1 + months) (ymd.2.2 + days)
    (hourOf t) (minuteOf t) (secondOf t) t.nsec t.loc

/-- Convenience constructor for theorems: an instant from a UTC civil date. -/
def mkUtc (y m d hh mi ss : Int) : GoTime := goDate y m d hh mi ss 0 utcLoc

/-- Seconds-since-epoch of the zero `time.Time` (January 1, year 1, UTC). -/
def goZeroSec : Int := daysFromCivil 1 1 1 * 86400

/-- Go `t.IsZero()`. -/
def isZeroTime (t : GoTime) : Bool := t.sec == goZeroSec && t.nsec == 0

/-! ## Rendering (the Go layout strings used by the core) -/

/-- Go month names (layout `January`). -/
def monthName (m : Int) : String :=
  if m == 1 then "January" else if m == 2 then "February"
  else if m == 3 then "March" else if m == 4 then "April"
  else if m == 5 then "May" else if m == 6 then "June"
  else if m == 7 then "July" else if m == 8 then "August"
  else if m == 9 then "September" else if m == 10 then "October"
  else if m == 11 then "November" else "December"

/-- Go weekday names (layout `Monday`). -/
def weekdayName (w : Int) : String :=
  if w == 0 then "Sunday" else if w == 1 then "Monday"
  else if w == 2 then "Tuesday" else if w == 3 then "Wednesday"
  else if w == 4 then "Thursday" else if w == 5 then "Friday"
  else "Saturday"

/-- Go layout `2006-01-02 15:04:05 MST` applied to `t`. -/
def fmtYMDHMSZone (t : GoTime) : String :=
  let ymd := dateOf t
  pad4 ymd.1 ++ "-" ++ pad2 ymd.2.1 ++ "-" ++ pad2 ymd.2.2 ++ " " ++
    pad2 (hourOf t) ++ ":" ++ pad2 (minuteOf t) ++ ":" ++ pad2 (secondOf t) ++
    " " ++ t.loc.abbr

/-- Go layout `January 2, 2006` applied to `t`. -/
def fmtMonthDayYear (t : GoTime) : String :=
  let ymd := dateOf t
  monthName ymd.2.1 ++ " " ++ toString ymd.2.2 ++ ", " ++ pad4 ymd.1

/-- Go layout `3:04 PM` applied to `t`. -/
def fmtClock12 (t : GoTime) : String :=
  let h := hourOf t
  let h12 := if Int.emod h 12 == 0 then 12 else Int.emod h 12
  toString h12 ++ ":" ++ pad2 (minuteOf t) ++ " " ++ (if h < 12 then "AM" else "PM")

/-- Go `Format("Monday")` applied to `t`. -/
def fmtWeekday (t : GoTime) : String := weekdayName (weekdayOf t)

/-! ## Model of Go stdlib `time.ParseDuration` -/

/-- Nanoseconds per unit in Go duration syntax. -/
def goDurUnitNs (u : List Char) : Option Int :=
  if u = ['n','s'] then some 1
  else if u = ['u','s'] then some 1000
  else if u = ['µ','s'] then some 1000
  else if u = ['μ','s'] then some 1000
  else if u = ['m','s'] then some 1000000
  else if u = ['s'] then some 1000000000
  else if u = ['m'] then some 60000000000
  else if u = ['h'] then some 3600000000000
  else none

/-- One component of a Go duration: digits, optional fraction, unit;
yields its nanosecond value and the remaining characters. -/
def durComponent (cs : List Char) : Option (Int × List Char) :=
  let intPart := cs.takeWhile Char.isDigit
  let r1 := cs.dropWhile Char.isDigit
  let hasDot := r1.head? = some '.'
  let fracPart := if hasDot then r1.tail.takeWhile Char.isDigit else []
  let r2 := if hasDot then r1.tail.dropWhile Char.isDigit else r1
  if intPart.isEmpty ∧ fracPart.isEmpty then none
  else
    let unitCs := r2.takeWhile (fun c => ¬ c.isDigit ∧ c ≠ '.')
    let rest := r2.dropWhile (fun c => ¬ c.isDigit ∧ c ≠ '.')
    match goDurUnitNs unitCs with
    | none => none
    | some u =>
      let v : Int := (digitsToNat intPart : Nat)
      let f : Int := (digitsToNat fracPart : Nat)
      some (v * u + Int.tdiv (f * u) ((10 : Int) ^ fracPart.length), rest)

/-- Component loop of `time.ParseDuration`; a successful component always
consumes at least the unit character, so the fuel (the input length plus
one) never runs out. -/
def durLoop : Nat → List Char → Int → Option Int
  | _, [], acc => some acc
  | 0, _ :: _, _ => none
  | Nat.succ fuel, cs, acc =>
    match durComponent cs with
    | none => none
    | some (v, rest) => durLoop fuel rest (acc + v)

/-- Model of Go stdlib `time.ParseDuration` (external collaborator): an
optional sign applied to the whole value, the special case `"0"`, then one
or more (number, optional fraction, unit) components with units
ns/us/µs/ms/s/m/h, summed in nanoseconds.  Fractional components are
computed exactly and truncated (the Go original rounds through float
arithmetic; no claim in this development exercises fractional components). -/
def parseGoDuration (s : String) : Option Int :=
  let cs := s.data
  let sgn := match cs with
    | '-' :: r => (true, r)
    | '+' :: r => (false, r)
    | r => (false, r)
  let cs1 := sgn.2
  if cs1 = ['0'] then some 0
  else if cs1.isEmpty then none
  else match durLoop (cs1.length + 1) cs1 0 with
    | none => none
    | some total => some (if sgn.1 then -total else total)

/-! ## The repository's relative-duration parser (`parser.go`) -/

/-- `parseExtendedDuration` (parser.go): the anchored regular expression
match for optional minus, one or more digits and a single unit character
among d/w/M/y on the trimmed input, then Go `AddDate` calendar-aware
addition.  A character outside the d/w/M/y class fails the anchored match
(the switch's own default branch is unreachable). -/
def parseExtendedDuration (input : String) (referenceTime : GoTime) : Except String GoTime :=
  let cs := charsTrim input.data
  let sgn := match cs with
    | '-' :: r => (true, r)
    | r => (false, r)
  let ds := sgn.2.takeWhile Char.isDigit
  let rest := sgn.2.dropWhile Char.isDigit
  if ds.isEmpty then .error "invalid extended duration format"
  else
    match rest with
    | [u] =>
      let value : Int := (digitsToNat ds : Nat)
      let value := if sgn.1 then -value else value
      if u = 'd' then .ok (addDate referenceTime 0 0 value)
      else if u = 'w' then .ok (addDate referenceTime 0 0 (value * 7))
      else if u = 'M' then .ok (addDate referenceTime 0 value 0)
      else if u = 'y' then .ok (addDate referenceTime value 0 0)
      else .error "invalid extended duration format"
    | _ => .error "invalid extended duration format"

/-- `parseDurationRelative` (parser.go, layer 1 of the fuzzy chain):
Go `time.ParseDuration` first, then the extended d/w/M/y grammar. -/
def parseDurationRelative (input : String) (referenceTime : GoTime) : Except String GoTime :=
  match parseGoDuration input with
  | some d => .ok (addNs referenceTime d)
  | none =>
    match parseExtendedDuration input referenceTime with
    | .ok t => .ok t
    | .error _ => .error ("not a valid duration format: " ++ input)

/-! ## Model of the external `when` natural-language library -/

/-- Outcome of a `when` parse: error, nil result (no rule matched), or a
resolved time. -/
inductive WhenRes where
  | fail : WhenRes
  | nilRes : WhenRes
  | found : GoTime → WhenRes
deriving DecidableEq

/-- Seconds per unit word of the modelled `when` grammar. -/
def whenUnitSeconds (u : String) : Option Int :=
  if u = "second" ∨ u = "seconds" then some 1
  else if u = "minute" ∨ u = "minutes" then some 60
  else if u = "hour" ∨ u = "hours" then some 3600
  else if u = "day" ∨ u = "days" then some 86400
  else if u = "week" ∨ u = "weeks" then some 604800
  else none

/-- All-digit string to a natural number. -/
def parseNatStr (s : String) : Option Nat :=
  if s.data ≠ [] ∧ s.data.all Char.isDigit then some (digitsToNat s.data) else none

/-- Modelled from the spec: the external `when` natural-language time
library (spec §4.3, an external collaborator whose code is not in the
repository).  The model recognizes the relative expressions the spec names
("N units ago", "in N units", "tomorrow", "yesterday") against the
reference instant, using fixed unit lengths as the library's common rules
do, and reports no match (`nilRes`) otherwise. -/
def whenParse (input : String) (ref : GoTime) : WhenRes :=
  match fieldsOf input with
  | [w] =>
    if w = "tomorrow" then .found (addSeconds ref 86400)
    else if w = "yesterday" then .found (addSeconds ref (-86400))
    else .nilRes
  | [a, b, c] =>
    if c = "ago" then
      match parseNatStr a, whenUnitSeconds b with
      | some n, some u => .found (addSeconds ref (-(n : Int) * u))
      | _, _ => .nilRes
    else if a = "in" then
      match parseNatStr b, whenUnitSeconds c with
      | some n, some u => .found (addSeconds ref ((n : Int) * u))
      | _, _ => .nilRes
    else .nilRes
  | _ => .nilRes

/-- The failure test the source applies to every `when` result:
error, nil result, or zero time. -/
def whenFailed : WhenRes → Bool
  | .fail => true
  | .nilRes => true
  | .found t => isZeroTime t

/-! ## The compound-duration split (the Go regular expression
`(?i)(.+?)\s+and\s+(.+?)(\s+ago)?$` of `parseCompoundDuration`) -/

/-- Try to read the separator of the compound regular expression at the
current position: one or more whitespace characters, `and`
(case-insensitively), one or more whitespace characters; yields what
follows. -/
def matchAndSep (cs : List Char) : Option (List Char) :=
  let ws1 := cs.takeWhile Char.isWhitespace
  let r1 := cs.dropWhile Char.isWhitespace
  if ws1.isEmpty then none
  else match r1 with
    | a :: n :: d :: r2 =>
      if a.toLower = 'a' ∧ n.toLower = 'n' ∧ d.toLower = 'd' then
        let ws2 := r2.takeWhile Char.isWhitespace
        let r3 := r2.dropWhile Char.isWhitespace
        if ws2.isEmpty then none else some r3
      else none
    | _ => none

/-- Scan for the leftmost separator position (the first capture group is
lazy, so the match puts the separator as early as possible); the first
group and the remainder must both be nonempty. -/
def compoundScan : List Char → List Char → Option (List Char × List Char)
  | _, [] => none
  | acc, c :: rest =>
    match matchAndSep rest with
    | some r => if r.isEmpty then compoundScan (acc ++ [c]) rest else some (acc ++ [c], r)
    | none => compoundScan (acc ++ [c]) rest

/-- Split the optional trailing `(\s+ago)?$` (case-insensitive) off the
second group: when the remainder ends in whitespace then `ago` with a
nonempty group before it, the lazy second group stops there. -/
def agoSplit (rest : List Char) : List Char × Bool :=
  match rest.reverse with
  | o :: g :: a :: rev' =>
    if o.toLower = 'o' ∧ g.toLower = 'g' ∧ a.toLower = 'a' then
      let wsr := rev'.takeWhile Char.isWhitespace
      let rem := rev'.dropWhile Char.isWhitespace
      if wsr.isEmpty ∨ rem.isEmpty then (rest, false) else (rem.reverse, true)
    else (rest, false)
  | _ => (rest, false)

/-- The whole compound match: the two phrase groups and whether the
trailing `ago` was present.  (The pathological backtracking case where the
second group would consist of whitespace only is modelled as no match;
both readings make the source fail the expression, differing only in
which error message they produce.) -/
def compoundSplit (cs : List Char) : Option (List Char × List Char × Bool) :=
  match compoundScan [] cs with
  | none => none
  | some (p1, rest) =>
    let pa := agoSplit rest
    some (p1, pa.1, pa.2)

/-- `parseCompoundDuration` (parser.go): regular-expression split of the
trimmed input, `ago` re-appended to both trimmed phrases when present,
each phrase parsed independently by the `when` library against the same
reference instant, the two offsets from the reference summed and
reapplied; any failed half fails the whole expression. -/
def parseCompoundDuration (input : String) (referenceTime : GoTime) (loc : Location) :
    Except String GoTime :=
  match compoundSplit (charsTrim input.data) with
  | none => .error "not a compound duration"
  | some (p1, p2, hasAgo) =>
    let part1 := strTrim ⟨p1⟩ ++ (if hasAgo then " ago" else "")
    let part2 := strTrim ⟨p2⟩ ++ (if hasAgo then " ago" else "")
    let refInTz := timeIn referenceTime loc
    match whenParse part1 refInTz with
    | .found t1 =>
      if isZeroTime t1 then .error ("failed to parse first part: " ++ part1)
      else
        match whenParse part2 refInTz with
        | .found t2 =>
          if isZeroTime t2 then .error ("failed to parse second part: " ++ part2)
          else
            let duration1 := subNs t1 refInTz
            let duration2 := subNs t2 refInTz
            .ok (timeIn (addNs refInTz (duration1 + duration2)) loc)
        | _ => .error ("failed to parse second part: " ++ part2)
    | _ => .error ("failed to parse first part: " ++ part1)

/-- `parseWithWhenLibrary` (parser.go, layer 3 of the fuzzy chain):
compound-duration decomposition first, then the general `when` grammar;
an error, nil or zero-time result is a failure, and a success is
normalized into the target location. -/
def parseWithWhenLibrary (input : String) (referenceTime : GoTime) (loc : Location) :
    Except String GoTime :=
  match parseCompoundDuration input referenceTime loc with
  | .ok t => .ok t
  | .error _ =>
    let refInTz := timeIn referenceTime loc
    match whenParse input refInTz with
    | .fail => .error "NLP parsing failed"
    | .nilRes => .error ("NLP parsing returned nil result for: " ++ input)
    | .found t =>
      if isZeroTime t then .error ("NLP parsing returned zero time for: " ++ input)
      else .ok (timeIn t loc)

/-! ## The strict layout parsers (Go `time.Parse` on the six layouts of
`ParseTimestamp`) -/

/-- Exactly two decimal digits. -/
def parse2Dig : List Char → Option (Nat × List Char)
  | a :: b :: r =>
    if a.isDigit ∧ b.isDigit then some (digitVal a * 10 + digitVal b, r) else none
  | _ => none

/-- Exactly four decimal digits. -/
def parse4Dig : List Char → Option (Nat × List Char)
  | a :: b :: c :: d :: r =>
    if a.isDigit ∧ b.isDigit ∧ c.isDigit ∧ d.isDigit then
      some (digitVal a * 1000 + digitVal b * 100 + digitVal c * 10 + digitVal d, r)
    else none
  | _ => none

/-- Expect one literal character. -/
def expectCh (c : Char) : List Char → Option (List Char)
  | x :: r => if x = c then some r else none
  | [] => none

/-- The layout fragment `2006-01-02` with Go's range validation of month
and day (day checked against the actual month length, leap years
included). -/
def parseDatePart (cs : List Char) : Option (Int × Int × Int × List Char) := do
  let (y, r1) ← parse4Dig cs
  let r2 ← expectCh '-' r1
  let (mo, r3) ← parse2Dig r2
  let r4 ← expectCh '-' r3
  let (d, r5) ← parse2Dig r4
  if 1 ≤ mo ∧ mo ≤ 12 ∧ 1 ≤ d ∧ (d : Int) ≤ daysInMonth (y : Int) (mo : Int) then
    some ((y : Int), (mo : Int), (d : Int), r5)
  else none

/-- The layout fragment `15:04:05` with Go's range validation. -/
def parseTimePart (cs : List Char) : Option (Int × Int × Int × List Char) := do
  let (hh, r1) ← parse2Dig cs
  let r2 ← expectCh ':' r1
  let (mi, r3) ← parse2Dig r2
  let r4 ← expectCh ':' r3
  let (ss, r5) ← parse2Dig r4
  if hh ≤ 23 ∧ mi ≤ 59 ∧ ss ≤ 59 then
    some ((hh : Int), (mi : Int), (ss : Int), r5)
  else none

/-- Go's optional fractional second after the seconds field (accepted on
parsing even when the layout has none): a dot followed by one or more
digits, of which the first nine carry nanosecond precision. -/
def parseFracOpt (cs : List Char) : Option (Int × List Char) :=
  match cs with
  | '.' :: r =>
    let ds := r.takeWhile Char.isDigit
    let rest := r.dropWhile Char.isDigit
    if ds.isEmpty then none
    else
      let d9 := ds.take 9
      some (((digitsToNat d9 * 10 ^ (9 - d9.length) : Nat) : Int), rest)
  | cs => some (0, cs)

/-- The layout fragment `Z07:00`: `Z` or a signed `hh:mm` offset. -/
def parseZonePart (cs : List Char) : Option (Int × List Char) :=
  match cs with
  | 'Z' :: r => some (0, r)
  | s :: r =>
    if s = '+' ∨ s = '-' then
      (do
        let (hh, r1) ← parse2Dig r
        let r2 ← expectCh ':' r1
        let (mm, r3) ← parse2Dig r2
        if hh ≤ 23 ∧ mm ≤ 59 then
          let off : Int := (hh : Int) * 3600 + (mm : Int) * 60
          some (if s = '-' then -off else off, r3)
        else none)
    else none
  | [] => none

/-- Model of Go `time.Parse(time.RFC3339, ·)`: date, `T`, time, optional
fractional second, `Z` or a signed offset, end of input.  A zero offset
yields the UTC location, any other an anonymous fixed zone, as in Go. -/
def parseRFC3339Str (s : String) : Option GoTime := do
  let (y, mo, d, r1) ← parseDatePart s.data
  let r2 ← expectCh 'T' r1
  let (hh, mi, ss, r3) ← parseTimePart r2
  let (ns, r4) ← parseFracOpt r3
  let (off, r5) ← parseZonePart r4
  if r5.isEmpty then
    some ⟨daysFromCivil y mo d * 86400 + hh * 3600 + mi * 60 + ss - off, ns,
      if off = 0 then utcLoc else fixedZone off⟩
  else none

/-- Go `time.Parse(time.RFC3339Nano, ·)`: in this model identical to the
RFC3339 layout, since Go parsing already accepts an optional fractional
second on both layouts (which makes the second strict layer unreachable
after the first, without affecting the cascade's ordering contract). -/
def parseRFC3339NanoStr (s : String) : Option GoTime := parseRFC3339Str s

/-- Go `time.ParseInLocation("2006-01-02T15:04:05", ·, loc)`. -/
def parseLayoutTNoZone (s : String) (loc : Location) : Option GoTime := do
  let (y, mo, d, r1) ← parseDatePart s.data
  let r2 ← expectCh 'T' r1
  let (hh, mi, ss, r3) ← parseTimePart r2
  let (ns, r4) ← parseFracOpt r3
  if r4.isEmpty then some (goDate y mo d hh mi ss ns loc) else none

/-- Go `time.ParseInLocation("2006-01-02T15:04:05.000", ·, loc)`:
exactly three fractional digits. -/
def parseLayoutTMilli (s : String) (loc : Location) : Option GoTime := do
  let (y, mo, d, r1) ← parseDatePart s.data
  let r2 ← expectCh 'T' r1
  let (hh, mi, ss, r3) ← parseTimePart r2
  match r3 with
  | '.' :: a :: b :: c :: [] =>
    if a.isDigit ∧ b.isDigit ∧ c.isDigit then
      some (goDate y mo d hh mi ss
        (((digitVal a * 100 + digitVal b * 10 + digitVal c) * 1000000 : Nat) : Int) loc)
    else none
  | _ => none

/-- Go `time.ParseInLocation("2006-01-02 15:04:05", ·, loc)`. -/
def parseLayoutSpace (s : String) (loc : Location) : Option GoTime := do
  let (y, mo, d, r1) ← parseDatePart s.data
  let r2 ← expectCh ' ' r1
  let (hh, mi, ss, r3) ← parseTimePart r2
  let (ns, r4) ← parseFracOpt r3
  if r4.isEmpty then some (goDate y mo d hh mi ss ns loc) else none

/-- Go `time.ParseInLocation("2006-01-02", ·, loc)`: midnight in `loc`. -/
def parseLayoutDateOnly (s : String) (loc : Location) : Option GoTime := do
  let (y, mo, d, r1) ← parseDatePart s.data
  if r1.isEmpty then some (goDate y mo d 0 0 0 0 loc) else none

/-! ## The strict parser `ParseTimestamp` (compat.go; `parseTimestamp` of
the server main package is character-for-character the same function) -/

/-- `ParseOptions` (types.go). -/
structure ParseOptions where
  EnableFuzzyParsing : Bool
  Timezone : String
  ReferenceTime : GoTime
deriving DecidableEq

/-- The total-failure error message of the strict parser, naming the
(trimmed) input and example accepted formats. -/
def invalidTimestampMsg (ts : String) : String :=
  "invalid timestamp format: '" ++ ts ++
    "'. Expected ISO 8601 (e.g., '2025-07-19T08:45:40.501Z'), 'YYYY-MM-DD HH:MM:SS', or 'YYYY-MM-DD'"

/-- The seventh strict attempt: a three-field input whose last field has at
most four characters is treated as date-time plus a timezone abbreviation;
the abbreviation is dropped and the date-time reparsed in the target
location. -/
def suffixAttempt (ts : String) (loc : Location) : Option GoTime :=
  match fieldsOf ts with
  | [p0, p1, p2] =>
    if p2.length ≤ 4 then parseLayoutSpace (p0 ++ " " ++ p1) loc else none
  | _ => none

/-- `ParseTimestamp` (compat.go): timezone lookup (failure wrapped and
surfaced immediately), trim, then the seven strict attempts in source
order with the first success returned; on total failure the canonical
error message over the trimmed input. -/
def ParseTimestamp (timestamp : String) (options : ParseOptions) : Except String GoTime :=
  match loadLocation options.Timezone with
  | none => .error ("invalid timezone: " ++ unknownTZMsg options.Timezone)
  | some loc =>
    let ts := strTrim timestamp
    match parseRFC3339Str ts with
    | some t => .ok (timeIn t loc)
    | none =>
    match parseRFC3339NanoStr ts with
    | some t => .ok (timeIn t loc)
    | none =>
    match parseLayoutTNoZone ts loc with
    | some t => .ok t
    | none =>
    match parseLayoutTMilli ts loc with
    | some t => .ok t
    | none =>
    match parseLayoutSpace ts loc with
    | some t => .ok t
    | none =>
    match parseLayoutDateOnly ts loc with
    | some t => .ok t
    | none =>
    match suffixAttempt ts loc with
    | some t => .ok t
    | none => .error (invalidTimestampMsg ts)

/-- The seven strict attempts as an ordered list (for stating the
first-match-wins contract). -/
def strictAttempts (loc : Location) : List (String → Option GoTime) :=
  [fun ts => (parseRFC3339Str ts).map (timeIn · loc),
   fun ts => (parseRFC3339NanoStr ts).map (timeIn · loc),
   fun ts => parseLayoutTNoZone ts loc,
   fun ts => parseLayoutTMilli ts loc,
   fun ts => parseLayoutSpace ts loc,
   fun ts => parseLayoutDateOnly ts loc,
   fun ts => suffixAttempt ts loc]

/-- First success of an ordered list of attempts. -/
def firstSome (ts : String) : List (String → Option GoTime) → Option GoTime
  | [] => none
  | f :: fs =>
    match f ts with
    | some t => some t
    | none => firstSome ts fs

/-! ## The standard-format layer (external `dateparse` library) -/

/-- Modelled from the spec: the external `dateparse` standard-format
parsing library (spec §2, an external collaborator whose code is not in
the repository): a broad set of machine-generated timestamp formats,
zone-carrying ones kept in their zone, zone-less ones resolved in the
supplied location.  The model recognizes the formats this development
exercises (RFC3339 styles, space-separated date-times, plain dates) and
fails on everything else, in particular on duration tokens and
natural-language phrases. -/
def dateparseParseIn (input : String) (loc : Location) : Option GoTime :=
  match parseRFC3339Str input with
  | some t => some t
  | none =>
  match parseLayoutSpace input loc with
  | some t => some t
  | none =>
  match parseLayoutTNoZone input loc with
  | some t => some t
  | none => parseLayoutDateOnly input loc

/-! ## The fuzzy dispatcher `ParseFuzzyTimestamp` (parser.go) -/

/-- Drop an error to `none` (the source only tests `err == nil`). -/
def exceptToOption : Except String GoTime → Option GoTime
  | .ok a => some a
  | .error _ => none

/-- The location the dispatcher works in: the looked-up location, or UTC
when the lookup fails (parser.go line 25 falls back silently). -/
def fuzzyLoc (options : ParseOptions) : Location :=
  (loadLocation options.Timezone).getD utcLoc

/-- The dispatcher's reference instant, re-displayed in its location. -/
def fuzzyRef (options : ParseOptions) : GoTime :=
  timeIn options.ReferenceTime (fuzzyLoc options)

/-- `ParseFuzzyTimestamp` (parser.go): the four-layer chain.  Layer 1
(relative durations) and layer 3 (natural language, compound first) run
only in fuzzy mode; layer 2 (`dateparse`) always runs; layer 4 is the
strict parser, which performs its own timezone lookup on the original
options. -/
def ParseFuzzyTimestamp (input : String) (options : ParseOptions) : Except String GoTime :=
  let loc := fuzzyLoc options
  let refInTz := fuzzyRef options
  match (if options.EnableFuzzyParsing
         then exceptToOption (parseDurationRelative input refInTz) else none) with
  | some t => .ok t
  | none =>
  match dateparseParseIn input loc with
  | some t => .ok t
  | none =>
  match (if options.EnableFuzzyParsing
         then exceptToOption (parseWithWhenLibrary input refInTz loc) else none) with
  | some t => .ok t
  | none => ParseTimestamp input options

/-! ## Presentation helpers of compat.go -/

/-- `TimeResult` (types.go). -/
structure TimeResult where
  FormattedTime : String
  Timestamp : GoTime
  Timezone : String
deriving DecidableEq

/-- `CurrentDateTime` (compat.go): the wall clock (`time.Now()`) is an
explicit argument of the model.  The timezone lookup failure is wrapped
and surfaced immediately. -/
def CurrentDateTime (now : GoTime) (options : ParseOptions) : Except String TimeResult :=
  match loadLocation options.Timezone with
  | none => .error ("invalid timezone: " ++ unknownTZMsg options.Timezone)
  | some loc =>
    let n := timeIn now loc
    .ok ⟨fmtYMDHMSZone n, n, options.Timezone⟩

/-- `formatWithPreciseTimestamp` (compat.go): the timezone lookup failure
falls back to UTC silently; the fuzzy text gets the precise timestamp
appended in parentheses. -/
def formatWithPreciseTimestamp (fuzzyText : String) (preciseTime : GoTime)
    (timezone : String) : String :=
  let loc := (loadLocation timezone).getD utcLoc
  let preciseFormatted := fmtYMDHMSZone (timeIn preciseTime loc)
  fuzzyText ++ " (" ++ preciseFormatted ++ ")"

/-- Model of the external `humanize.Time` (go-humanize): some relative
phrase computed from the wall clock and the target; its exact text never
reaches a caller of `formatDuration` because every style branch
overwrites it. -/
def humanizeTime (now target : GoTime) : String :=
  if target.sec ≤ now.sec then toString (now.sec - target.sec) ++ " seconds ago"
  else "in " ++ toString (target.sec - now.sec) ++ " seconds"

/-- `plural` (compat.go and the server main package). -/
def plural (n : Int) : String := if n == 1 then "" else "s"

/-- `formatDuration` (compat.go): the wall clock (`time.Now()`) is an
explicit argument of the model; `humanize.Time` seeds `fuzzyText`, and
every branch of the style switch overwrites it with the decomposition
days/hours/minutes/seconds of the truncated seconds value (the source
recomputes the same four integers inside each branch; they are hoisted
here once, unchanged in value).  Any style other than `compact` and
`minimal` takes the default (`full`) branch. -/
def formatDuration (now : GoTime) (seconds : Frac) (style : String)
    (isNegative : Bool) : String :=
  let targetTime := if isNegative then addSeconds now (-seconds.trunc)
                    else addSeconds now seconds.trunc
  let fuzzyText := humanizeTime now targetTime
  let days := (seconds.divNat 86400 (by decide)).trunc
  let si := seconds.trunc
  let hours := Int.tdiv (Int.tmod si 86400) 3600
  let minutes := Int.tdiv (Int.tmod si 3600) 60
  let secs := Int.tmod si 60
  let fuzzyText :=
    if style = "compact" then
      let parts : List String := if days > 0 then [toString days ++ "d"] else []
      let parts := if hours > 0 then parts ++ [toString hours ++ "h"] else parts
      let parts := if minutes > 0 then parts ++ [toString minutes ++ "m"] else parts
      let parts := if secs > 0 ∨ parts = [] then parts ++ [toString secs ++ "s"] else parts
      joinSep " " parts
    else if style = "minimal" then
      if days > 0 then
        toString days ++ ":" ++ pad2 hours ++ ":" ++ pad2 minutes ++ ":" ++ pad2 secs
      else if hours > 0 then
        toString hours ++ ":" ++ pad2 minutes ++ ":" ++ pad2 secs
      else
        toString minutes ++ ":" ++ pad2 secs
    else
      let parts : List String :=
        if days > 0 then [toString days ++ " day" ++ plural days] else []
      let parts := if hours > 0 then parts ++ [toString hours ++ " hour" ++ plural hours] else parts
      let parts :=
        if minutes > 0 then parts ++ [toString minutes ++ " minute" ++ plural minutes] else parts
      let parts :=
        if secs > 0 ∨ parts = [] then parts ++ [toString secs ++ " second" ++ plural secs] else parts
      joinSep ", " parts
  if isNegative then "-" ++ fuzzyText else fuzzyText

/-- `formatDuration` of the server main package (the file also holding
`parseTimestamp`): the same decomposition and style switch, with no
humanize prelude. -/
def formatDurationMain (seconds : Frac) (style : String) (isNegative : Bool) : String :=
  let days := (seconds.divNat 86400 (by decide)).trunc
  let si := seconds.trunc
  let hours := Int.tdiv (Int.tmod si 86400) 3600
  let minutes := Int.tdiv (Int.tmod si 3600) 60
  let secs := Int.tmod si 60
  let result :=
    if style = "compact" then
      let parts : List String := if days > 0 then [toString days ++ "d"] else []
      let parts := if hours > 0 then parts ++ [toString hours ++ "h"] else parts
      let parts := if minutes > 0 then parts ++ [toString minutes ++ "m"] else parts
      let parts := if secs > 0 ∨ parts = [] then parts ++ [toString secs ++ "s"] else parts
      joinSep " " parts
    else if style = "minimal" then
      if days > 0 then
        toString days ++ ":" ++ pad2 hours ++ ":" ++ pad2 minutes ++ ":" ++ pad2 secs
      else if hours > 0 then
        toString hours ++ ":" ++ pad2 minutes ++ ":" ++ pad2 secs
      else
        toString minutes ++ ":" ++ pad2 secs
    else
      let parts : List String :=
        if days > 0 then [toString days ++ " day" ++ plural days] else []
      let parts := if hours > 0 then parts ++ [toString hours ++ " hour" ++ plural hours] else parts
      let parts :=
        if minutes > 0 then parts ++ [toString minutes ++ " minute" ++ plural minutes] else parts
      let parts :=
        if secs > 0 ∨ parts = [] then parts ++ [toString secs ++ " second" ++ plural secs] else parts
      joinSep ", " parts
  if isNegative then "-" ++ result else result

/-- `GetTimeContext` (compat.go; `getTimeContext` of the server main
package is the same function): the context-bucket classifier. -/
def GetTimeContext (t now : GoTime) (seconds : Frac) : String :=
  let absSeconds := if seconds.ltInt 0 then seconds.neg else seconds
  if seconds.ltInt 0 then "in the future"
  else if absSeconds.ltInt 60 then "just now"
  else if absSeconds.ltInt 3600 then "earlier"
  else if absSeconds.ltInt 86400 then
    (if dayOf t = dayOf now then "earlier today" else "yesterday")
  else if absSeconds.ltInt 172800 then "yesterday"
  else if absSeconds.ltInt 604800 then "this week"
  else if absSeconds.ltInt 2592000 then "this month"
  else "a while ago"

/-- The whole-day difference of `GetTimeDescription`:
`int(t.Sub(now).Hours() / 24)`, i.e. the exact nanosecond difference over
`24 * 3600 * 10^9`, truncated toward zero (the float rounding of the Go
original is modelled as exact rational arithmetic). -/
def daysDiffOf (t now : GoTime) : Int :=
  Frac.trunc ⟨subNs t now, 86400000000000, by decide⟩

/-! ## Definitions written from the claims' wording (for refinement
comparisons against the source-derived functions above) -/

/-- Absolute value of a fraction (the `|diff|` of the spec's threshold
table). -/
def Frac.abs (q : Frac) : Frac := ⟨(q.num.natAbs : Int), q.den, q.den_pos⟩

/-- Claim C7's wording of the duration decomposition: `days =
floor(d/86400)`, then floors of the successive real remainders over 3600
and 60, the seconds component being the truncated final remainder. -/
def specFullComponents (d : Frac) : Int × Int × Int × Int :=
  let days := (d.divNat 86400 (by decide)).floor
  let rem1 := d.subInt (86400 * days)
  let hours := (rem1.divNat 3600 (by decide)).floor
  let rem2 := rem1.subInt (3600 * hours)
  let minutes := (rem2.divNat 60 (by decide)).floor
  let rem3 := rem2.subInt (60 * minutes)
  (days, hours, minutes, rem3.floor)

/-- Claim C7's wording of the `full` rendering: the comma-joined list of
the nonzero components with singular/plural unit names, `"0 seconds"`
when every component is zero. -/
def specFullRender (c : Int × Int × Int × Int) : String :=
  let parts : List String := if c.1 > 0 then [toString c.1 ++ " day" ++ plural c.1] else []
  let parts :=
    if c.2.1 > 0 then parts ++ [toString c.2.1 ++ " hour" ++ plural c.2.1] else parts
  let parts :=
    if c.2.2.1 > 0 then parts ++ [toString c.2.2.1 ++ " minute" ++ plural c.2.2.1] else parts
  let parts :=
    if c.2.2.2 > 0 ∨ parts = [] then parts ++ [toString c.2.2.2 ++ " second" ++ plural c.2.2.2]
    else parts
  joinSep ", " parts

/-- Claim C8's threshold table (spec §4.6), written on `|diff|` as the
table states it, with the day-of-month-number comparison in the
sub-86400 band. -/
def contextBucketTable (t now : GoTime) (diff : Frac) : String :=
  if diff.ltInt 0 then "in the future"
  else if diff.abs.ltInt 60 then "just now"
  else if diff.abs.ltInt 3600 then "earlier"
  else if diff.abs.ltInt 86400 then
    (if dayOf t = dayOf now then "earlier today" else "yesterday")
  else if diff.abs.ltInt 172800 then "yesterday"
  else if diff.abs.ltInt 604800 then "this week"
  else if diff.abs.ltInt 2592000 then "this month"
  else "a while ago"

/-- The eight context buckets. -/
def bucketList : List String :=
  ["in the future", "just now", "earlier", "earlier today", "yesterday",
   "this week", "this month", "a while ago"]

/-- Sample options used by concrete instances: strict mode, UTC, reference
2025-08-11T12:00:00Z. -/
def sampleOptsStrict : ParseOptions := ⟨false, "UTC", mkUtc 2025 8 11 12 0 0⟩

/-- Sample options with fuzzy mode enabled. -/
def sampleOptsFuzzy : ParseOptions := ⟨true, "UTC", mkUtc 2025 8 11 12 0 0⟩

/-- Sample options whose timezone identifier is not in the database. -/
def sampleOptsBadTz : ParseOptions := ⟨false, "No/Zone", mkUtc 2025 8 11 12 0 0⟩

/-- `GetTimeDescription` (compat.go; `getTimeDescription` of the server
main package is the same function). -/
def GetTimeDescription (t now : GoTime) (isDateOnly : Bool) : String :=
  let daysDiff := daysDiffOf t now
  let dayDesc :=
    if daysDiff = 0 then "today"
    else if daysDiff = 1 then "tomorrow"
    else if daysDiff = -1 then "yesterday"
    else if daysDiff = 2 ∨ daysDiff = 3 ∨ daysDiff = 4 ∨ daysDiff = 5 ∨
            daysDiff = 6 ∨ daysDiff = 7 then
      "next " ++ fmtWeekday t
    else if daysDiff = -7 ∨ daysDiff = -6 ∨ daysDiff = -5 ∨ daysDiff = -4 ∨
            daysDiff = -3 ∨ daysDiff = -2 then
      "last " ++ fmtWeekday t
    else fmtMonthDayYear t
  if isDateOnly then dayDesc
  else dayDesc ++ " at " ++ fmtClock12 t

/-! ## Theorems -/

/-- Claim C10: `formatDuration` is deterministic in `(seconds, style,
isNegative)`: the wall clock only feeds the initial `humanize.Time` text,
which every branch of the style switch overwrites before the function
returns. -/
theorem c10_format_duration_deterministic
    (now1 now2 : GoTime) (seconds : Frac) (style : String) (isNegative : Bool) :
    formatDuration now1 seconds style isNegative =
      formatDuration now2 seconds style isNegative := rfl

/-- Claim C4, counterexample: at seconds 5 and the undocumented style
`"bogus"`, both duration formatters return the ordinary `full`-style
rendering `"5 seconds"` — a plain result string equal to the default
style's output, not a descriptive error naming the offending style. -/
theorem c4_invalid_style_counterexample :
    formatDuration (mkUtc 2025 1 1 0 0 0) (Frac.ofInt 5) "bogus" false = "5 seconds" ∧
    formatDuration (mkUtc 2025 1 1 0 0 0) (Frac.ofInt 5) "bogus" false =
      formatDuration (mkUtc 2025 1 1 0 0 0) (Frac.ofInt 5) "full" false ∧
    formatDurationMain (Frac.ofInt 5) "bogus" false = "5 seconds" ∧
    formatDurationMain (Frac.ofInt 5) "bogus" false =
      formatDurationMain (Frac.ofInt 5) "full" false ∧
    ¬ ("bogus".data <:+: (formatDurationMain (Frac.ofInt 5) "bogus" false).data) := by
  refine ⟨by decide, by decide, by decide, by decide, by decide⟩

/-- Claim C4, amended: for every seconds value, sign flag and style string
that is neither `"compact"` nor `"minimal"`, the duration formatters
silently fall into the default (`full`) branch of the style switch and
return its rendering; no error value exists in their signature and the
style is never validated. -/
theorem c4_invalid_style_defaults_to_full
    (now : GoTime) (seconds : Frac) (isNegative : Bool) (style : String)
    (h1 : style ≠ "compact") (h2 : style ≠ "minimal") :
    formatDuration now seconds style isNegative =
      formatDuration now seconds "full" isNegative ∧
    formatDurationMain seconds style isNegative =
      formatDurationMain seconds "full" isNegative := by
  constructor
  · simp only [formatDuration, if_neg h1, if_neg h2]
    rfl
  · simp only [formatDurationMain, if_neg h1, if_neg h2]
    rfl

/-- Claim C4, witness: the amended statement at the concrete style
`"bogus"`, seconds 61, negative sign. -/
theorem c4_invalid_style_witness :
    formatDuration (mkUtc 2025 1 1 0 0 0) (Frac.ofInt 61) "bogus" true =
      formatDuration (mkUtc 2025 1 1 0 0 0) (Frac.ofInt 61) "full" true ∧
    formatDurationMain (Frac.ofInt 61) "bogus" true =
      formatDurationMain (Frac.ofInt 61) "full" true :=
  c4_invalid_style_defaults_to_full (mkUtc 2025 1 1 0 0 0) (Frac.ofInt 61) true "bogus"
    (by decide) (by decide)

/-- Claim C1, counterexample: with the unresolvable identifier
`"No/Zone"`, `ParseFuzzyTimestamp` does not return an error wrapping the
lookup failure — it silently proceeds with UTC and successfully parses an
RFC3339 input — and `formatWithPreciseTimestamp` (whose signature has no
error at all) silently renders the precise timestamp in UTC. -/
theorem c1_silent_utc_fallback_counterexample :
    loadLocation "No/Zone" = none ∧
    ParseFuzzyTimestamp "2025-08-12T15:00:00Z" sampleOptsBadTz =
      .ok (mkUtc 2025 8 12 15 0 0) ∧
    formatWithPreciseTimestamp "2 hours ago" (mkUtc 2025 8 11 12 0 0) "No/Zone" =
      "2 hours ago (2025-08-11 12:00:00 UTC)" := by
  refine ⟨by decide, by decide, by decide⟩

/-- Claim C1, amended: when the timezone-database lookup fails,
`ParseTimestamp` and `CurrentDateTime` return an error wrapping the lookup
failure immediately, but `ParseFuzzyTimestamp` and
`formatWithPreciseTimestamp` silently substitute UTC instead (the
dispatcher's own location falls back to UTC; only its final strict layer
re-does the lookup and can then surface the wrapped error). -/
theorem c1_tz_lookup_failure_behavior
    (opts : ParseOptions) (ts ft : String) (pt now : GoTime)
    (h : loadLocation opts.Timezone = none) :
    ParseTimestamp ts opts = .error ("invalid timezone: " ++ unknownTZMsg opts.Timezone) ∧
    CurrentDateTime now opts = .error ("invalid timezone: " ++ unknownTZMsg opts.Timezone) ∧
    formatWithPreciseTimestamp ft pt opts.Timezone = formatWithPreciseTimestamp ft pt "UTC" ∧
    fuzzyLoc opts = utcLoc := by
  refine ⟨?_, ?_, ?_, ?_⟩
  · simp only [ParseTimestamp, h]
  · simp only [CurrentDateTime, h]
  · simp only [formatWithPreciseTimestamp, h]
    rfl
  · simp only [fuzzyLoc, h]
    rfl

/-- Claim C1, witness: the amended statement at `"No/Zone"`. -/
theorem c1_tz_lookup_failure_witness :
    ParseTimestamp "2025-08-12T15:00:00Z" sampleOptsBadTz =
      .error ("invalid timezone: " ++ unknownTZMsg "No/Zone") ∧
    CurrentDateTime (mkUtc 2025 8 11 12 0 0) sampleOptsBadTz =
      .error ("invalid timezone: " ++ unknownTZMsg "No/Zone") ∧
    formatWithPreciseTimestamp "x" (mkUtc 2025 8 11 12 0 0) "No/Zone" =
      formatWithPreciseTimestamp "x" (mkUtc 2025 8 11 12 0 0) "UTC" ∧
    fuzzyLoc sampleOptsBadTz = utcLoc :=
  c1_tz_lookup_failure_behavior sampleOptsBadTz "2025-08-12T15:00:00Z" "x"
    (mkUtc 2025 8 11 12 0 0) (mkUtc 2025 8 11 12 0 0) (by decide)

/-- Claim C3: short-unit durations resolve to exactly the encoded offset
from the reference: h/m/s forms add the exact fixed duration, d/w/M/y
forms go through calendar-aware `AddDate` (so months and years follow
variable month lengths and leap years, shown by the 31/28-day month steps
and the 366/365-day year steps), a zero duration resolves to exactly the
reference, and `"-14d"` against 2025-08-11T12:00:00Z resolves to
2025-07-28T12:00:00Z, exactly 14 days earlier. -/
theorem c3_relative_duration_roundtrip :
    (∀ R : GoTime, parseDurationRelative "-14d" R = .ok (addDate R 0 0 (-14))) ∧
    (∀ R : GoTime, parseDurationRelative "2w" R = .ok (addDate R 0 0 14)) ∧
    (∀ R : GoTime, parseDurationRelative "3M" R = .ok (addDate R 0 3 0)) ∧
    (∀ R : GoTime, parseDurationRelative "1y" R = .ok (addDate R 1 0 0)) ∧
    (∀ R : GoTime, parseDurationRelative "2h30m" R = .ok (addNs R 9000000000000)) ∧
    (∀ R : GoTime, 0 ≤ R.nsec → R.nsec < 1000000000 →
      parseDurationRelative "0s" R = .ok R) ∧
    parseDurationRelative "0d" (mkUtc 2025 8 11 12 0 0) = .ok (mkUtc 2025 8 11 12 0 0) ∧
    parseDurationRelative "-14d" (mkUtc 2025 8 11 12 0 0) = .ok (mkUtc 2025 7 28 12 0 0) ∧
    (mkUtc 2025 8 11 12 0 0).sec - (mkUtc 2025 7 28 12 0 0).sec = 14 * 86400 ∧
    parseDurationRelative "1M" (mkUtc 2025 1 15 0 0 0) = .ok (mkUtc 2025 2 15 0 0 0) ∧
    parseDurationRelative "1M" (mkUtc 2025 2 15 0 0 0) = .ok (mkUtc 2025 3 15 0 0 0) ∧
    (mkUtc 2025 2 15 0 0 0).sec - (mkUtc 2025 1 15 0 0 0).sec = 31 * 86400 ∧
    (mkUtc 2025 3 15 0 0 0).sec - (mkUtc 2025 2 15 0 0 0).sec = 28 * 86400 ∧
    parseDurationRelative "1y" (mkUtc 2024 2 15 0 0 0) = .ok (mkUtc 2025 2 15 0 0 0) ∧
    (mkUtc 2025 2 15 0 0 0).sec - (mkUtc 2024 2 15 0 0 0).sec = 366 * 86400 ∧
    parseDurationRelative "1y" (mkUtc 2023 2 15 0 0 0) = .ok (mkUtc 2024 2 15 0 0 0) ∧
    (mkUtc 2024 2 15 0 0 0).sec - (mkUtc 2023 2 15 0 0 0).sec = 365 * 86400 := by
  refine ⟨fun R => rfl, fun R => rfl, fun R => rfl, fun R => rfl, fun R => rfl,
    ?_, by decide, by decide, by decide, by decide, by decide, by decide, by decide,
    by decide, by decide, by decide, by decide⟩
  intro R h1 h2
  show Except.ok (addNs R 0) = Except.ok R
  have e1 : Int.fdiv (R.sec * 1000000000 + R.nsec) 1000000000 = R.sec := by
    rw [Int.fdiv_eq_ediv _ (by omega)]
    omega
  have e2 : Int.emod (R.sec * 1000000000 + R.nsec) 1000000000 = R.nsec := by
    have h : Int.emod (R.sec * 1000000000 + R.nsec) 1000000000 =
        (R.sec * 1000000000 + R.nsec) % 1000000000 := rfl
    rw [h]
    omega
  simp [addNs, e1, e2]

/-- Claim C3, witness: the zero-duration component at the concrete
reference 2025-08-11T12:00:00Z. -/
theorem c3_relative_duration_witness :
    parseDurationRelative "0s" (mkUtc 2025 8 11 12 0 0) = .ok (mkUtc 2025 8 11 12 0 0) :=
  c3_relative_duration_roundtrip.2.2.2.2.2.1 (mkUtc 2025 8 11 12 0 0)
    (by decide) (by decide)

/-- Claim C2: the dispatcher's strict layer precedence.  With fuzzy mode
off the chain collapses to `dateparse` then strict parsing (duration and
natural-language layers never consulted); with fuzzy mode on, a layer-1
duration success is returned immediately, a layer-2 `dateparse` success is
returned when layer 1 fails, a layer-3 natural-language success (with
compound decomposition tried first inside that layer) when layers 1–2
fail, and the strict parser decides when all three fail.  Consequently,
with fuzzy mode disabled `"-14d"` fails while `"2025-08-12T15:00:00Z"`
still succeeds, and `"-14d"` succeeds once fuzzy mode is enabled. -/
theorem c2_layer_precedence :
    (∀ (input : String) (opts : ParseOptions), opts.EnableFuzzyParsing = false →
      ParseFuzzyTimestamp input opts =
        match dateparseParseIn input (fuzzyLoc opts) with
        | some t => .ok t
        | none => ParseTimestamp input opts) ∧
    (∀ (input : String) (opts : ParseOptions) (v : GoTime),
      opts.EnableFuzzyParsing = true →
      parseDurationRelative input (fuzzyRef opts) = .ok v →
      ParseFuzzyTimestamp input opts = .ok v) ∧
    (∀ (input : String) (opts : ParseOptions) (em : String) (v : GoTime),
      opts.EnableFuzzyParsing = true →
      parseDurationRelative input (fuzzyRef opts) = .error em →
      dateparseParseIn input (fuzzyLoc opts) = some v →
      ParseFuzzyTimestamp input opts = .ok v) ∧
    (∀ (input : String) (opts : ParseOptions) (em : String) (v : GoTime),
      opts.EnableFuzzyParsing = true →
      parseDurationRelative input (fuzzyRef opts) = .error em →
      dateparseParseIn input (fuzzyLoc opts) = none →
      parseWithWhenLibrary input (fuzzyRef opts) (fuzzyLoc opts) = .ok v →
      ParseFuzzyTimestamp input opts = .ok v) ∧
    (∀ (input : String) (opts : ParseOptions) (e1 e3 : String),
      opts.EnableFuzzyParsing = true →
      parseDurationRelative input (fuzzyRef opts) = .error e1 →
      dateparseParseIn input (fuzzyLoc opts) = none →
      parseWithWhenLibrary input (fuzzyRef opts) (fuzzyLoc opts) = .error e3 →
      ParseFuzzyTimestamp input opts = ParseTimestamp input opts) ∧
    (∀ (input : String) (ref : GoTime) (loc : Location) (v : GoTime),
      parseCompoundDuration input ref loc = .ok v →
      parseWithWhenLibrary input ref loc = .ok v) ∧
    ParseFuzzyTimestamp "-14d" sampleOptsStrict = .error (invalidTimestampMsg "-14d") ∧
    ParseFuzzyTimestamp "2025-08-12T15:00:00Z" sampleOptsStrict =
      .ok (mkUtc 2025 8 12 15 0 0) ∧
    ParseFuzzyTimestamp "-14d" sampleOptsFuzzy = .ok (mkUtc 2025 7 28 12 0 0) := by
  refine ⟨?_, ?_, ?_, ?_, ?_, ?_, by decide, by decide, by decide⟩
  · intro input opts hf
    simp only [ParseFuzzyTimestamp, hf, Bool.false_eq_true, if_false]
  · intro input opts v hf hd
    simp only [ParseFuzzyTimestamp, hf, if_true, hd, exceptToOption]
  · intro input opts em v hf hd hdp
    simp only [ParseFuzzyTimestamp, hf, if_true, hd, exceptToOption, hdp]
  · intro input opts em v hf hd hdp hw
    simp only [ParseFuzzyTimestamp, hf, if_true, hd, exceptToOption, hdp, hw]
  · intro input opts e1 e3 hf hd hdp hw
    simp only [ParseFuzzyTimestamp, hf, if_true, hd, exceptToOption, hdp, hw]
  · intro input ref loc v hc
    simp only [parseWithWhenLibrary, hc]

/-- Claim C2, witness: the fuzzy-off collapse applied at `"-14d"` with
the sample strict options. -/
theorem c2_layer_precedence_witness :
    ParseFuzzyTimestamp "-14d" sampleOptsStrict =
      match dateparseParseIn "-14d" (fuzzyLoc sampleOptsStrict) with
      | some t => .ok t
      | none => ParseTimestamp "-14d" sampleOptsStrict :=
  c2_layer_precedence.1 "-14d" sampleOptsStrict (by decide)

/-- Claim C5: on every input the compound regular expression splits, the
`ago` suffix is appended to both trimmed phrases, each phrase is parsed
independently by the `when` library against the same reference instant,
and on double success the two offsets from the reference are summed and
reapplied to it; a failed first or second half (error, nil result or zero
time) fails the whole expression with no partial result.  Concretely,
`"3 days and 2 hours ago"` against 2025-08-11T12:00:00Z resolves to
2025-08-08T10:00:00Z, and `"3 days and bogus ago"` fails whole. -/
theorem c5_compound_combination :
    (∀ (input : String) (ref : GoTime) (loc : Location)
       (p1 p2 : List Char) (ago : Bool) (t1 t2 : GoTime),
      compoundSplit (charsTrim input.data) = some (p1, p2, ago) →
      whenParse (strTrim ⟨p1⟩ ++ (if ago then " ago" else "")) (timeIn ref loc) = .found t1 →
      isZeroTime t1 = false →
      whenParse (strTrim ⟨p2⟩ ++ (if ago then " ago" else "")) (timeIn ref loc) = .found t2 →
      isZeroTime t2 = false →
      parseCompoundDuration input ref loc =
        .ok (timeIn (addNs (timeIn ref loc)
          (subNs t1 (timeIn ref loc) + subNs t2 (timeIn ref loc))) loc)) ∧
    (∀ (input : String) (ref : GoTime) (loc : Location)
       (p1 p2 : List Char) (ago : Bool),
      compoundSplit (charsTrim input.data) = some (p1, p2, ago) →
      whenFailed (whenParse (strTrim ⟨p1⟩ ++ (if ago then " ago" else ""))
        (timeIn ref loc)) = true →
      parseCompoundDuration input ref loc =
        .error ("failed to parse first part: " ++
          (strTrim ⟨p1⟩ ++ (if ago then " ago" else "")))) ∧
    (∀ (input : String) (ref : GoTime) (loc : Location)
       (p1 p2 : List Char) (ago : Bool) (t1 : GoTime),
      compoundSplit (charsTrim input.data) = some (p1, p2, ago) →
      whenParse (strTrim ⟨p1⟩ ++ (if ago then " ago" else "")) (timeIn ref loc) = .found t1 →
      isZeroTime t1 = false →
      whenFailed (whenParse (strTrim ⟨p2⟩ ++ (if ago then " ago" else ""))
        (timeIn ref loc)) = true →
      parseCompoundDuration input ref loc =
        .error ("failed to parse second part: " ++
          (strTrim ⟨p2⟩ ++ (if ago then " ago" else "")))) ∧
    compoundSplit (charsTrim "3 days and 2 hours ago".data) =
      some ("3 days".data, "2 hours".data, true) ∧
    parseCompoundDuration "3 days and 2 hours ago" (mkUtc 2025 8 11 12 0 0) utcLoc =
      .ok (mkUtc 2025 8 8 10 0 0) ∧
    parseCompoundDuration "3 days and bogus ago" (mkUtc 2025 8 11 12 0 0) utcLoc =
      .error "failed to parse second part: bogus ago" := by
  refine ⟨?_, ?_, ?_, by decide, by decide, by decide⟩
  · intro input ref loc p1 p2 ago t1 t2 hs h1 hz1 h2 hz2
    simp only [parseCompoundDuration, hs, h1, hz1, h2, hz2, Bool.false_eq_true, if_false]
  · intro input ref loc p1 p2 ago hs hfail
    simp only [parseCompoundDuration, hs]
    cases hw : whenParse (strTrim ⟨p1⟩ ++ (if ago then " ago" else "")) (timeIn ref loc) with
    | fail => rfl
    | nilRes => rfl
    | found t =>
      rw [hw] at hfail
      simp only [whenFailed] at hfail
      simp only [hfail, if_true]
  · intro input ref loc p1 p2 ago t1 hs h1 hz1 hfail
    simp only [parseCompoundDuration, hs, h1, hz1, Bool.false_eq_true, if_false]
    cases hw : whenParse (strTrim ⟨p2⟩ ++ (if ago then " ago" else "")) (timeIn ref loc) with
    | fail => rfl
    | nilRes => rfl
    | found t =>
      rw [hw] at hfail
      simp only [whenFailed] at hfail
      simp only [hfail, if_true]

/-- Claim C5, witness: the double-success combination applied at the
concrete compound input `"3 days and 2 hours ago"`. -/
theorem c5_compound_combination_witness :
    parseCompoundDuration "3 days and 2 hours ago" (mkUtc 2025 8 11 12 0 0) utcLoc =
      .ok (timeIn (addNs (timeIn (mkUtc 2025 8 11 12 0 0) utcLoc)
        (subNs (addSeconds (timeIn (mkUtc 2025 8 11 12 0 0) utcLoc) (-(3 : Int) * 86400))
            (timeIn (mkUtc 2025 8 11 12 0 0) utcLoc) +
         subNs (addSeconds (timeIn (mkUtc 2025 8 11 12 0 0) utcLoc) (-(2 : Int) * 3600))
            (timeIn (mkUtc 2025 8 11 12 0 0) utcLoc))) utcLoc) :=
  c5_compound_combination.1 "3 days and 2 hours ago" (mkUtc 2025 8 11 12 0 0) utcLoc
    "3 days".data "2 hours".data true
    (addSeconds (timeIn (mkUtc 2025 8 11 12 0 0) utcLoc) (-(3 : Int) * 86400))
    (addSeconds (timeIn (mkUtc 2025 8 11 12 0 0) utcLoc) (-(2 : Int) * 3600))
    (by decide) (by decide) (by decide) (by decide) (by decide)

/-- Claim C6, counterexample: for the input `" @@@ "` (surrounded by
whitespace) every layout fails, and the error message contains the
trimmed string `"@@@"` but not the original raw input `" @@@ "`
verbatim. -/
theorem c6_raw_verbatim_counterexample :
    ParseTimestamp " @@@ " sampleOptsStrict = .error (invalidTimestampMsg "@@@") ∧
    ¬ (" @@@ ".data <:+: (invalidTimestampMsg "@@@").data) := by
  refine ⟨by decide, by decide⟩

/-- Claim C6, amended: with a resolvable timezone the strict parser is
exactly the first success of its seven attempts in source order (RFC3339,
RFC3339 with extended fractional precision, `T`-separated without zone,
with milliseconds, space-separated, date-only, then the discarded
≤4-character trailing-token reinterpretation), and on total failure the
error message is the canonical one containing the whitespace-trimmed
input verbatim (not the raw input when that differs) together with the
example accepted formats; a trailing-token input is reinterpreted in the
caller-supplied target timezone with the abbreviation discarded, never
resolved to an offset. -/
theorem c6_strict_layout_order :
    (∀ (input : String) (opts : ParseOptions) (loc : Location),
      loadLocation opts.Timezone = some loc →
      ParseTimestamp input opts =
        match firstSome (strTrim input) (strictAttempts loc) with
        | some t => .ok t
        | none => .error (invalidTimestampMsg (strTrim input))) ∧
    (∀ ts : String, (strTrim ts).data <:+: (invalidTimestampMsg (strTrim ts)).data) ∧
    (∀ ts : String,
      ("Expected ISO 8601 (e.g., '2025-07-19T08:45:40.501Z'), 'YYYY-MM-DD HH:MM:SS', or 'YYYY-MM-DD'").data
        <:+: (invalidTimestampMsg ts).data) ∧
    ParseTimestamp "2025-07-19 08:45:40 EST" sampleOptsStrict =
      .ok (mkUtc 2025 7 19 8 45 40) ∧
    ParseTimestamp "2025-07-19 08:45:40 PST" ⟨false, "Etc/GMT+5", mkUtc 2025 8 11 12 0 0⟩ =
      .ok (timeIn (mkUtc 2025 7 19 13 45 40) ⟨"Etc/GMT+5", "-05", -18000⟩) := by
  refine ⟨?_, ?_, ?_, by decide, by decide⟩
  · intro input opts loc h
    simp only [ParseTimestamp, h, strictAttempts, firstSome]
    cases h1 : parseRFC3339Str (strTrim input) with
    | some t => simp [h1]
    | none =>
    cases h2 : parseRFC3339NanoStr (strTrim input) with
    | some t => simp [h1, h2]
    | none =>
    cases h3 : parseLayoutTNoZone (strTrim input) loc with
    | some t => simp [h1, h2, h3]
    | none =>
    cases h4 : parseLayoutTMilli (strTrim input) loc with
    | some t => simp [h1, h2, h3, h4]
    | none =>
    cases h5 : parseLayoutSpace (strTrim input) loc with
    | some t => simp [h1, h2, h3, h4, h5]
    | none =>
    cases h6 : parseLayoutDateOnly (strTrim input) loc with
    | some t => simp [h1, h2, h3, h4, h5, h6]
    | none =>
    cases h7 : suffixAttempt (strTrim input) loc with
    | some t => simp [h1, h2, h3, h4, h5, h6, h7]
    | none => simp [h1, h2, h3, h4, h5, h6, h7]
  · intro ts
    refine ⟨"invalid timestamp format: '".data,
      "'. Expected ISO 8601 (e.g., '2025-07-19T08:45:40.501Z'), 'YYYY-MM-DD HH:MM:SS', or 'YYYY-MM-DD'".data, ?_⟩
    simp [invalidTimestampMsg, String.data_append]
  · intro ts
    refine ⟨"invalid timestamp format: '".data ++ ts.data ++ "'. ".data, [], ?_⟩
    simp only [invalidTimestampMsg, String.data_append, List.append_assoc, List.append_nil]
    congr 2

/-- Claim C6, witness: the first-match contract applied at the input
`"-14d"` with the sample strict options. -/
theorem c6_strict_layout_order_witness :
    ParseTimestamp "-14d" sampleOptsStrict =
      match firstSome (strTrim "-14d") (strictAttempts utcLoc) with
      | some t => .ok t
      | none => .error (invalidTimestampMsg (strTrim "-14d")) :=
  c6_strict_layout_order.1 "-14d" sampleOptsStrict utcLoc (by decide)

/-- Claim C9: the describe operation computes the whole-day difference by
truncating the hour difference over 24 (not by calendar-day subtraction)
and maps it to today/tomorrow/yesterday, `next`/`last` weekday names for
2..7 and −7..−2, the full month-day-year date otherwise, appending the
12-hour clock when `isDateOnly` is false.  The concrete instances pin the
hour-division semantics: 22 wall-clock hours across midnight is still
`"today"`, in both directions (truncation toward zero). -/
theorem c9_time_description :
    (∀ t now : GoTime, GetTimeDescription t now false =
      GetTimeDescription t now true ++ " at " ++ fmtClock12 t) ∧
    (∀ t now : GoTime, daysDiffOf t now = 0 → GetTimeDescription t now true = "today") ∧
    (∀ t now : GoTime, daysDiffOf t now = 1 → GetTimeDescription t now true = "tomorrow") ∧
    (∀ t now : GoTime, daysDiffOf t now = -1 → GetTimeDescription t now true = "yesterday") ∧
    (∀ t now : GoTime, 2 ≤ daysDiffOf t now → daysDiffOf t now ≤ 7 →
      GetTimeDescription t now true = "next " ++ fmtWeekday t) ∧
    (∀ t now : GoTime, -7 ≤ daysDiffOf t now → daysDiffOf t now ≤ -2 →
      GetTimeDescription t now true = "last " ++ fmtWeekday t) ∧
    (∀ t now : GoTime, daysDiffOf t now < -7 ∨ 7 < daysDiffOf t now →
      GetTimeDescription t now true = fmtMonthDayYear t) ∧
    GetTimeDescription (mkUtc 2025 8 12 11 0 0) (mkUtc 2025 8 11 13 0 0) true = "today" ∧
    GetTimeDescription (mkUtc 2025 8 10 14 0 0) (mkUtc 2025 8 11 12 0 0) true = "today" ∧
    GetTimeDescription (mkUtc 2025 8 14 12 0 0) (mkUtc 2025 8 11 12 0 0) true =
      "next Thursday" ∧
    GetTimeDescription (mkUtc 2025 8 14 12 0 0) (mkUtc 2025 8 11 12 0 0) false =
      "next Thursday at 12:00 PM" ∧
    GetTimeDescription (mkUtc 2025 9 20 12 0 0) (mkUtc 2025 8 11 12 0 0) true =
      "September 20, 2025" := by
  refine ⟨fun t now => rfl, ?_, ?_, ?_, ?_, ?_, ?_,
    by decide, by decide, by decide, by decide, by decide⟩
  · intro t now h
    simp [GetTimeDescription, h]
  · intro t now h
    simp [GetTimeDescription, h]
  · intro t now h
    simp [GetTimeDescription, h]
  · intro t now h1 h2
    have hd : daysDiffOf t now = 2 ∨ daysDiffOf t now = 3 ∨ daysDiffOf t now = 4 ∨
        daysDiffOf t now = 5 ∨ daysDiffOf t now = 6 ∨ daysDiffOf t now = 7 := by omega
    rcases hd with h | h | h | h | h | h <;> simp [GetTimeDescription, h]
  · intro t now h1 h2
    have hd : daysDiffOf t now = -7 ∨ daysDiffOf t now = -6 ∨ daysDiffOf t now = -5 ∨
        daysDiffOf t now = -4 ∨ daysDiffOf t now = -3 ∨ daysDiffOf t now = -2 := by omega
    rcases hd with h | h | h | h | h | h <;> simp [GetTimeDescription, h]
  · intro t now h
    have h0 : ¬ daysDiffOf t now = 0 := by omega
    have hp1 : ¬ daysDiffOf t now = 1 := by omega
    have hm1 : ¬ daysDiffOf t now = -1 := by omega
    have hno : ¬ (daysDiffOf t now = 2 ∨ daysDiffOf t now = 3 ∨ daysDiffOf t now = 4 ∨
        daysDiffOf t now = 5 ∨ daysDiffOf t now = 6 ∨ daysDiffOf t now = 7) := by omega
    have hnl : ¬ (daysDiffOf t now = -7 ∨ daysDiffOf t now = -6 ∨ daysDiffOf t now = -5 ∨
        daysDiffOf t now = -4 ∨ daysDiffOf t now = -3 ∨ daysDiffOf t now = -2) := by omega
    simp [GetTimeDescription, h0, hp1, hm1, hno, hnl]

/-- Claim C9, witness: the today-mapping applied at the cross-midnight
instance whose hour difference is 22 (so the whole-day difference
truncates to 0 although the calendar days differ). -/
theorem c9_time_description_witness :
    GetTimeDescription (mkUtc 2025 8 12 11 0 0) (mkUtc 2025 8 11 13 0 0) true = "today" :=
  c9_time_description.2.1 (mkUtc 2025 8 12 11 0 0) (mkUtc 2025 8 11 13 0 0) (by decide)

/-- The classifier's running absolute value equals `Frac.abs`. -/
theorem absSeconds_eq_abs (s : Frac) : (if s.ltInt 0 then s.neg else s) = s.abs := by
  cases s with
  | mk n d hd =>
    by_cases hn : n < 0 * (d : Int)
    · rw [zero_mul] at hn
      have hb : Frac.ltInt ⟨n, d, hd⟩ 0 = true := by simp [Frac.ltInt, hn]
      simp only [hb, if_true]
      show Frac.neg ⟨n, d, hd⟩ = Frac.abs ⟨n, d, hd⟩
      simp only [Frac.neg, Frac.abs]
      rw [show ((Int.natAbs n : Int)) = -n from by omega]
    · rw [zero_mul] at hn
      have hb : Frac.ltInt ⟨n, d, hd⟩ 0 = false := by simp [Frac.ltInt, hn]
      simp only [hb, Bool.false_eq_true, if_false]
      show (⟨n, d, hd⟩ : Frac) = Frac.abs ⟨n, d, hd⟩
      simp only [Frac.abs]
      rw [show ((Int.natAbs n : Int)) = n from by omega]

/-- Claim C8: the context-bucket classifier is total — it agrees pointwise
with the spec's threshold table over `|diff|` and always returns exactly
one of the eight fixed buckets — and within the sub-86400 band
`"earlier today"` is returned exactly when the target's numeric
day-of-month equals the reference's (not full calendar-day identity),
`"in the future"` exactly when the signed difference is negative. -/
theorem c8_context_bucket_total :
    (∀ (t now : GoTime) (s : Frac), GetTimeContext t now s = contextBucketTable t now s) ∧
    (∀ (t now : GoTime) (s : Frac), GetTimeContext t now s ∈ bucketList) ∧
    (∀ (t now : GoTime) (s : Frac),
      GetTimeContext t now s = "in the future" ↔ s.ltInt 0 = true) ∧
    (∀ (t now : GoTime) (s : Frac),
      GetTimeContext t now s = "earlier today" ↔
        (s.ltInt 0 = false ∧ s.ltInt 60 = false ∧ s.ltInt 3600 = false ∧
         s.ltInt 86400 = true ∧ dayOf t = dayOf now)) := by
  have key : ∀ (t now : GoTime) (s : Frac),
      GetTimeContext t now s = contextBucketTable t now s := by
    intro t now s
    simp only [GetTimeContext, contextBucketTable, absSeconds_eq_abs]
  refine ⟨key, ?_, ?_, ?_⟩
  · intro t now s
    rw [key]
    simp only [contextBucketTable]
    split_ifs <;> simp [bucketList]
  · intro t now s
    by_cases h0 : s.ltInt 0 = true
    · simp [GetTimeContext, h0]
    · have h0' : s.ltInt 0 = false := by revert h0; cases s.ltInt 0 <;> simp
      simp only [GetTimeContext, h0', Bool.false_eq_true, if_false]
      split_ifs <;> simp_all
  · intro t now s
    by_cases h0 : s.ltInt 0 = true
    · simp [GetTimeContext, h0]
    · have h0' : s.ltInt 0 = false := by revert h0; cases s.ltInt 0 <;> simp
      simp only [GetTimeContext, h0', Bool.false_eq_true, if_false]
      split_ifs <;> simp_all

/-- `Int.fdiv` on natural casts is natural division. -/
theorem natCast_fdiv (a b : ℕ) : Int.fdiv (a : Int) (b : Int) = ((a / b : ℕ) : Int) := by
  cases a with
  | zero => rw [Nat.zero_div]; rfl
  | succ a => rfl

/-- `Int.tdiv` on natural casts is natural division. -/
theorem natCast_tdiv (a b : ℕ) : Int.tdiv (a : Int) (b : Int) = ((a / b : ℕ) : Int) := rfl

/-- `Int.tmod` on natural casts is the natural remainder. -/
theorem natCast_tmod (a b : ℕ) : Int.tmod (a : Int) (b : Int) = ((a % b : ℕ) : Int) := rfl

/-- Casting the Euclidean identity: subtracting 86400 times the day count
from the numerator leaves the numerator's remainder. -/
theorem cast_sub_day (a b : ℕ) :
    (↑a : Int) - 86400 * ↑(a / (b * 86400)) * ↑b = ↑(a % (b * 86400)) := by
  have h := Nat.mod_add_div a (b * 86400)
  have h2 := congrArg (fun x : ℕ => (x : Int)) h
  push_cast at h2 ⊢
  linear_combination -h2

/-- As `cast_sub_day`, for the hour step. -/
theorem cast_sub_hour (a b : ℕ) :
    (↑a : Int) - 3600 * ↑(a / (b * 3600)) * ↑b = ↑(a % (b * 3600)) := by
  have h := Nat.mod_add_div a (b * 3600)
  have h2 := congrArg (fun x : ℕ => (x : Int)) h
  push_cast at h2 ⊢
  linear_combination -h2

/-- As `cast_sub_day`, for the minute step. -/
theorem cast_sub_minute (a b : ℕ) :
    (↑a : Int) - 60 * ↑(a / (b * 60)) * ↑b = ↑(a % (b * 60)) := by
  have h := Nat.mod_add_div a (b * 60)
  have h2 := congrArg (fun x : ℕ => (x : Int)) h
  push_cast at h2 ⊢
  linear_combination -h2

/-- The spec-worded floor decomposition of a nonnegative rational equals
the integer decomposition of its truncation — the computation the source
performs. -/
theorem specFullComponents_eq (n b : ℕ) (hb : 0 < b) :
    specFullComponents ⟨(n : Int), b, hb⟩ =
      (((n / (b * 86400) : ℕ) : Int), ((n / b % 86400 / 3600 : ℕ) : Int),
       ((n / b % 3600 / 60 : ℕ) : Int), ((n / b % 60 : ℕ) : Int)) := by
  have hd3600 : b * 3600 ∣ b * 86400 := Nat.mul_dvd_mul_left b ⟨24, by norm_num⟩
  have hd60 : b * 60 ∣ b * 3600 := Nat.mul_dvd_mul_left b ⟨60, by norm_num⟩
  simp only [specFullComponents, Frac.divNat, Frac.floor, Frac.subInt, Frac.trunc]
  rw [natCast_fdiv n (b * 86400)]
  rw [cast_sub_day n b]
  rw [natCast_fdiv (n % (b * 86400)) (b * 3600)]
  rw [cast_sub_hour (n % (b * 86400)) b]
  rw [show n % (b * 86400) % (b * 3600) = n % (b * 3600) from Nat.mod_mod_of_dvd n hd3600]
  rw [natCast_fdiv (n % (b * 3600)) (b * 60)]
  rw [cast_sub_minute (n % (b * 3600)) b]
  rw [show n % (b * 3600) % (b * 60) = n % (b * 60) from Nat.mod_mod_of_dvd n hd60]
  rw [natCast_fdiv (n % (b * 60)) b]
  have e1 : n % (b * 86400) / (b * 3600) = n / b % 86400 / 3600 := by
    rw [← Nat.div_div_eq_div_mul (n % (b * 86400)) b 3600,
      Nat.mod_mul_right_div_self n b 86400]
  have e2 : n % (b * 3600) / (b * 60) = n / b % 3600 / 60 := by
    rw [← Nat.div_div_eq_div_mul (n % (b * 3600)) b 60,
      Nat.mod_mul_right_div_self n b 3600]
  have e3 : n % (b * 60) / b = n / b % 60 := Nat.mod_mul_right_div_self n b 60
  rw [e1, e2, e3]

/-- The joined rendering is at least as long as its first part. -/
theorem joinSep_cons_length (x : String) (xs : List String) :
    x.length ≤ (joinSep ", " (x :: xs)).length := by
  cases xs with
  | nil => simp [joinSep]
  | cons y ys =>
    simp [joinSep, String.length_append]
    omega

/-- A joined list whose first part is nonempty renders nonempty. -/
theorem joinSep_cons_ne_empty (x : String) (xs : List String) (hx : 0 < x.length) :
    joinSep ", " (x :: xs) ≠ "" := by
  intro hemp
  have hl := joinSep_cons_length x xs
  rw [hemp] at hl
  have hz : ("" : String).length = 0 := rfl
  omega

/-- Three appended strings with a nonempty middle are nonempty. -/
theorem append3_len_pos (s t u : String) (ht : 0 < t.length) :
    0 < (s ++ t ++ u).length := by
  simp [String.length_append]
  omega

/-- The claim-worded `full` rendering never produces the empty string. -/
theorem specFullRender_ne_empty (c : Int × Int × Int × Int) : specFullRender c ≠ "" := by
  obtain ⟨d, h, m, s⟩ := c
  simp only [specFullRender]
  split_ifs <;>
    first
      | exact joinSep_cons_ne_empty _ _ (append3_len_pos _ _ _ (by decide))
      | simp_all

/-- Claim C7: for every nonnegative seconds value, `full`-style
`formatDuration` renders exactly the truncating floor decomposition of the
claim (days over 86400, then the remainders over 3600 and 60) as the
comma-joined list of nonzero components with singular/plural unit names,
emitting `"0 seconds"` for a zero duration, so the output is never empty;
the server main package's formatter agrees with the library one, and
`format(93784, "full", false)` is
`"1 day, 2 hours, 3 minutes, 4 seconds"`. -/
theorem c7_full_style_decomposition :
    (∀ (now : GoTime) (d : Frac), d.Nonneg →
      formatDuration now d "full" false = specFullRender (specFullComponents d)) ∧
    (∀ (now : GoTime) (d : Frac) (style : String) (isNegative : Bool),
      formatDurationMain d style isNegative = formatDuration now d style isNegative) ∧
    (∀ (now : GoTime) (d : Frac), d.Nonneg → formatDuration now d "full" false ≠ "") ∧
    (∀ now : GoTime, formatDuration now (Frac.ofInt 0) "full" false = "0 seconds") ∧
    (∀ now : GoTime, formatDuration now (Frac.ofInt 93784) "full" false =
      "1 day, 2 hours, 3 minutes, 4 seconds") := by
  have main : ∀ (now : GoTime) (d : Frac), d.Nonneg →
      formatDuration now d "full" false = specFullRender (specFullComponents d) := by
    intro now d hng
    obtain ⟨num, den, hden⟩ := d
    have h0 : 0 ≤ num := hng
    obtain ⟨n, rfl⟩ : ∃ n : ℕ, num = (n : Int) := ⟨num.toNat, by omega⟩
    rw [specFullComponents_eq n den hden]
    rfl
  refine ⟨main, fun now d style neg => rfl, ?_, fun now => rfl, fun now => rfl⟩
  intro now d hng
  rw [main now d hng]
  exact specFullRender_ne_empty _

/-- Claim C7, witness: the decomposition equality applied at 93784
seconds. -/
theorem c7_full_style_witness :
    formatDuration (mkUtc 2025 1 1 0 0 0) (Frac.ofInt 93784) "full" false =
      specFullRender (specFullComponents (Frac.ofInt 93784)) :=
  c7_full_style_decomposition.1 (mkUtc 2025 1 1 0 0 0) (Frac.ofInt 93784) (by decide)

end PTime
